import Mathlib

/- Verification of the gap-up annotation pipelines of ai-trading-gapup
   (src/app.py, src/run.py, src/run3.py, src/run4.py).

   A candle is one intraday OHLCV row indexed by a datetime.  The pipelines
   group candles by calendar day, attach per-day derived values to the first
   candle of each day, flag gap-up events, and classify them.  Rationals
   stand for the numeric columns; `Option ℚ` stands for a float column whose
   missing entries are NaN (pandas comparisons against NaN are false, which
   the `opt*` helpers reproduce). -/

namespace GapUp

/-- A datetime index value: calendar date plus intraday time-of-day.
Datetime comparison is lexicographic, date first. -/
structure Ts where
  date : ℤ
  time : ℤ
deriving DecidableEq

/-- Strict ordering of datetimes (date-major lexicographic order). -/
def TsLt (s t : Ts) : Prop :=
  s.date < t.date ∨ (s.date = t.date ∧ s.time < t.time)

instance (s t : Ts) : Decidable (TsLt s t) :=
  inferInstanceAs (Decidable (s.date < t.date ∨ (s.date = t.date ∧ s.time < t.time)))

/-- One OHLCV candle row of the input table. -/
structure Candle where
  ts : Ts
  open_ : ℚ
  high : ℚ
  low : ℚ
  close : ℚ
  volume : ℚ
deriving DecidableEq

/-- The normalized-sequence invariant (run3/run4 `load_stock_data` sorts by
the datetime index and drops duplicate indices): strictly increasing
timestamps along the list. -/
def Chrono (df : List Candle) : Prop :=
  df.Pairwise (fun a b => TsLt a.ts b.ts)

instance candleLtDecRel : DecidableRel (fun a b : Candle => TsLt a.ts b.ts) :=
  fun a b => inferInstanceAs (Decidable (TsLt a.ts b.ts))

instance (df : List Candle) : Decidable (Chrono df) :=
  List.instDecidablePairwise df

/-- pandas `a > b` where `b` may be NaN (`none`): a NaN comparison is false. -/
def optGt (a : ℚ) : Option ℚ → Bool
  | none => false
  | some b => decide (b < a)

/-- pandas `a <= b` where `b` may be NaN: a NaN comparison is false. -/
def optLe (a : ℚ) : Option ℚ → Bool
  | none => false
  | some b => decide (a ≤ b)

/-- The gap percentage `(a - p) / p * 100` against a possibly-NaN reference
close (the `none` branch is only reached on rows whose final column value is
forced to 0 anyway). -/
def optPct (a : ℚ) : Option ℚ → ℚ
  | none => 0
  | some p => (a - p) / p * 100

/-- run3.py line 54: `(Open - Prev_Day_Close) / Prev_Day_Close * 100 >= 1.0`,
false when the reference close is NaN. -/
def optPctGe1 (a : ℚ) : Option ℚ → Bool
  | none => false
  | some p => decide ((1 : ℚ) ≤ (a - p) / p * 100)

/-- The distinct values of a column in first-occurrence order
(pandas `Series.unique`). -/
def uniqDates : List ℤ → List ℤ
  | [] => []
  | d :: ds => d :: (uniqDates ds).filter (fun x => decide (x ≠ d))

/-- The group keys of `df.groupby('Date')`: the distinct dates of the
sequence, sorted ascending (pandas sorts group keys). -/
def dayKeysSorted (df : List Candle) : List ℤ :=
  List.insertionSort (· ≤ ·) (uniqDates (df.map (fun c => c.ts.date)))

/-- The `groupby('Date')[col].last()` entry for day `d`: the column value of
the last row of day `d` in row order (the default 0 is never consulted:
callers only pass present days). -/
def lastOfDay (df : List Candle) (d : ℤ) (f : Candle → ℚ) : ℚ :=
  (((df.filter (fun c => decide (c.ts.date = d))).map f).getLast?).getD 0

/-- `df.groupby('Date')[col].last()` as an association list over the sorted
day keys. -/
def groupLast (df : List Candle) (f : Candle → ℚ) : List (ℤ × ℚ) :=
  (dayKeysSorted df).map (fun d => (d, lastOfDay df d f))

/-- `Series.shift(1)`: the keys are unchanged, each value moves to the next
key, and the first key gets NaN (`none`). -/
def shiftAssoc (l : List (ℤ × ℚ)) : List (ℤ × Option ℚ) :=
  (l.map Prod.fst).zip (none :: l.map (fun p => some p.snd))

/-- The value of `df.groupby('Date')[col].last().shift(1)` at day `d`:
`none` when `d` is not a key of the series or the shifted entry is NaN. -/
def lookupShift (df : List Candle) (f : Candle → ℚ) (d : ℤ) : Option ℚ :=
  ((shiftAssoc (groupLast df f)).lookup d).join

/-- `c.ts = df[df['Date'] == c.date].index.min()`: no row of `c`'s calendar
day carries a strictly earlier timestamp (run3/run4 assign the per-day
values at this row). -/
def isMinTsOfDay (df : List Candle) (c : Candle) : Bool :=
  df.all (fun x => !(decide (x.ts.date = c.ts.date) && decide (TsLt x.ts c.ts)))

/-- `c.ts ∈ df.groupby('Date').head(1).index` for a duplicate-free index:
the first listed row carrying `c`'s date is the row with `c`'s timestamp. -/
def isHeadOfDay : List Candle → Candle → Bool
  | [], _ => false
  | x :: rest, c =>
      if x.ts.date = c.ts.date then decide (x.ts = c.ts) else isHeadOfDay rest c

/-- `df.groupby('Date').head(1)`: the first listed row of each calendar day,
in row order (`seen` records the dates already emitted). -/
def firstCandlesAux : List Candle → List ℤ → List Candle
  | [], _ => []
  | c :: rest, seen =>
      if c.ts.date ∈ seen then firstCandlesAux rest seen
      else c :: firstCandlesAux rest (c.ts.date :: seen)

/-- `df.groupby('Date').head(1)` of the whole sequence. -/
def firstCandles (df : List Candle) : List Candle := firstCandlesAux df []

/-- Arithmetic mean of a list of rationals. -/
def listMean (l : List ℚ) : ℚ := l.sum / l.length

/-- run3.py line 26: `first_candles['Volume'].rolling(window=20,
min_periods=1).mean().shift(1)`.  The series is indexed by the *datetime*
index of the first candles (`head(1)` keeps the original index); position
`i` holds the mean of the first-candle volumes of the up to 20 most recent
days strictly before day `i`, and position 0 holds NaN. -/
def avgVolAssoc (df : List Candle) : List (Ts × Option ℚ) :=
  let fc := firstCandles df
  let vols := fc.map (fun c => c.volume)
  fc.enum.map (fun p =>
    (p.2.ts, if p.1 = 0 then none else some (listMean ((vols.take p.1).reverse.take 20))))

/-- run3.py `calculate_previous_close` (lines 17-41), `Prev_Day_Close`
column at row `c`: NaN everywhere except at the minimum-timestamp row of
each day, which receives the shifted per-day last close. -/
def run3PrevDayClose (df : List Candle) (c : Candle) : Option ℚ :=
  if isMinTsOfDay df c then lookupShift df (fun x => x.close) c.ts.date else none

/-- run3.py `calculate_previous_close`, `Prev_Day_High` column: as the
close column, but using the high of the previous day's *last* row. -/
def run3PrevDayHigh (df : List Candle) (c : Candle) : Option ℚ :=
  if isMinTsOfDay df c then lookupShift df (fun x => x.high) c.ts.date else none

/-- run3.py `calculate_previous_close`, `Volume_Avg` column.  The source
guards the assignment with `if date in avg_volume.index`, where `date` is a
`datetime.date` but `avg_volume` is indexed by the first candles' full
timestamps; the membership test converts the date to its midnight timestamp,
so it succeeds only when the day's first candle has time-of-day 0, and the
looked-up entry is the rolling-mean value of that first candle. -/
def run3VolumeAvg (df : List Candle) (c : Candle) : Option ℚ :=
  if isMinTsOfDay df c then ((avgVolAssoc df).lookup ⟨c.ts.date, 0⟩).join else none

/-- run3.py `detect_gap_ups` (lines 43-59), `GAPUP` column: the conjunction
of the six mask factors of `valid_comparison`. -/
def run3Gapup (df : List Candle) (c : Candle) : Bool :=
  isHeadOfDay df c
    && optGt c.open_ (run3PrevDayClose df c)
    && (run3PrevDayClose df c).isSome
    && optPctGe1 c.open_ (run3PrevDayClose df c)
    && optGt c.volume (run3VolumeAvg df c)
    && (run3VolumeAvg df c).isSome

/-- run3.py `calculate_gap_percentage` (lines 61-82), final `GAPPERCENT`
column: the percentage formula, forced to 0 on every non-gap row. -/
def run3GapPercent (df : List Candle) (c : Candle) : ℚ :=
  if run3Gapup df c then optPct c.open_ (run3PrevDayClose df c) else 0

/-- The `GAPSIZE` masked-assignment chain shared by run.py, run3.py and
run4.py: start from the initializer "None" and apply the five `.loc`
overwrites in source order (a later matching mask wins). -/
def gapSizeOf (gu : Bool) (p : ℚ) : String :=
  let s1 := if gu = true ∧ p < 5 then "Small" else "None"
  let s2 := if gu = true ∧ 5 ≤ p ∧ p < 7 then "Large" else s1
  let s3 := if gu = true ∧ 7 ≤ p ∧ p < 10 then "Moderate" else s2
  let s4 := if gu = true ∧ 10 ≤ p ∧ p < 20 then "Aggressive" else s3
  if gu = true ∧ 20 ≤ p then "Extreme" else s4

/-- run3.py final `GAPSIZE` column. -/
def run3GapSize (df : List Candle) (c : Candle) : String :=
  gapSizeOf (run3Gapup df c) (run3GapPercent df c)

/-- The `GAPTYPE` masked-assignment chain of run3.py (lines 78-80):
initializer "None", then Full where `Open > Prev_Day_High` (and not NaN),
then Partial where `Open <= Prev_Day_High` (and not NaN). -/
def gapTypeOf (gu : Bool) (o : ℚ) (pdh : Option ℚ) : String :=
  let t1 := if gu = true ∧ optGt o pdh = true ∧ pdh.isSome = true then "Full" else "None"
  if gu = true ∧ optLe o pdh = true ∧ pdh.isSome = true then "Partial" else t1

/-- run3.py final `GAPTYPE` column. -/
def run3GapType (df : List Candle) (c : Candle) : String :=
  gapTypeOf (run3Gapup df c) c.open_ (run3PrevDayHigh df c)

/-- run4.py `calculate_previous_close` (lines 21-35), `Prev_Day_Close`
column: run4 iterates `last_close.dropna()`, but skipping the NaN entries
coincides with assigning them into the NaN-initialized column, so the
resulting column is the same as run3's. -/
def run4PrevDayClose (df : List Candle) (c : Candle) : Option ℚ :=
  if isMinTsOfDay df c then lookupShift df (fun x => x.close) c.ts.date else none

/-- run4.py `detect_gap_ups` (lines 37-49), `GAPUP` column
(`valid_comparison`): first candle of the day, open above the previous
close, previous close not NaN. -/
def run4Gapup (df : List Candle) (c : Candle) : Bool :=
  isHeadOfDay df c
    && optGt c.open_ (run4PrevDayClose df c)
    && (run4PrevDayClose df c).isSome

/-- Round a rational to the nearest integer, ties to even (numpy's
`round` rule used by `Series.round`). -/
def roundHalfEven (x : ℚ) : ℤ :=
  let n := ⌊x⌋
  if x - n < 1/2 then n
  else if 1/2 < x - n then n + 1
  else if n % 2 = 0 then n else n + 1

/-- `Series.round(2)`: round to 2 decimal places, ties to even. -/
def round2 (x : ℚ) : ℚ := (roundHalfEven (100 * x) : ℚ) / 100

/-- `(Open - Prev_Day_Close).round(2)` against a possibly-NaN close (the
`none` branch is only consulted on rows that keep the 0 initializer). -/
def optRound2Sub (a : ℚ) : Option ℚ → ℚ
  | none => 0
  | some p => round2 (a - p)

/-- run4.py final `GAPAMOUNT` column: initialized to 0, overwritten on the
`valid_comparison` rows (exactly the `GAPUP` rows) with the rounded dollar
difference. -/
def run4GapAmount (df : List Candle) (c : Candle) : ℚ :=
  if run4Gapup df c then optRound2Sub c.open_ (run4PrevDayClose df c) else 0

/-- run4.py final `GAPPERCENT` column (lines 51-55). -/
def run4GapPercent (df : List Candle) (c : Candle) : ℚ :=
  if run4Gapup df c then optPct c.open_ (run4PrevDayClose df c) else 0

/-- run4.py final `GAPSIZE` column (lines 57-65). -/
def run4GapSize (df : List Candle) (c : Candle) : String :=
  gapSizeOf (run4Gapup df c) (run4GapPercent df c)

/-- run.py `calculate_previous_close` (lines 13-25), `Prev_Day_Close`
column: the loop body `df.loc[df['Date'] == date, 'Prev_Day_Close'] = close`
assigns the shifted last close to *every* row of the day, not only the first
candle (the guard `date in first_candles.index` holds for every present
date). -/
def runPrevDayClose (df : List Candle) (c : Candle) : Option ℚ :=
  lookupShift df (fun x => x.close) c.ts.date

/-- run.py `detect_gap_ups` (lines 27-34), `GAPUP` column.  The mask factor
`df['Date'].isin(first_candles_idx)` tests the row's *date* against the
groupby keys (which are all the present dates), so it holds for every row;
it is kept here verbatim. -/
def runGapup (df : List Candle) (c : Candle) : Bool :=
  decide (c.ts.date ∈ dayKeysSorted df) && optGt c.open_ (runPrevDayClose df c)

/-- run.py final `GAPPERCENT` column (lines 38-40). -/
def runGapPercent (df : List Candle) (c : Candle) : ℚ :=
  if runGapup df c then optPct c.open_ (runPrevDayClose df c) else 0

/-- run.py final `GAPSIZE` column (lines 42-50). -/
def runGapSize (df : List Candle) (c : Candle) : String :=
  gapSizeOf (runGapup df c) (runGapPercent df c)

/-- app.py `identify_gap_ups` (lines 13-23): `Prev_Close` is the close of
the immediately preceding *row* (`Close.shift(1)`, NaN at the first row),
`GAPUP` is `Open > Prev_Close`, and `GAPPERCENT` is the percentage against
the previous row's close, forced to 0 on non-gap rows.  Each output entry is
the pair (GAPUP, GAPPERCENT); `prev` carries the shifted close. -/
def appAnnAux (prev : Option ℚ) : List Candle → List (Bool × ℚ)
  | [] => []
  | c :: rest =>
      (optGt c.open_ prev, if optGt c.open_ prev then optPct c.open_ prev else 0)
        :: appAnnAux (some c.close) rest

/-- app.py annotated sequence: one (GAPUP, GAPPERCENT) pair per input row. -/
def appAnn (df : List Candle) : List (Bool × ℚ) := appAnnAux none df

/- Column-schema model (claim C8).  Each variant's stages only ever append
columns in assignment order or drop them by name, so the emitted schema is a
fixed column list. -/

/-- Working columns after `load_stock_data` in run.py/run3.py/run4.py: the
raw index column and `Adj Close` are dropped and `Datetime` becomes the
index, leaving the OHLCV columns. -/
def loadCols : List String := ["Open", "High", "Low", "Close", "Volume"]

/-- run.py columns after all stages, before cleanup: the input schema plus
`Date`, `Prev_Day_Close`, `GAPUP`, `GAPPERCENT`, `GAPSIZE` in assignment
order. -/
def runAllCols : List String :=
  loadCols ++ ["Date", "Prev_Day_Close", "GAPUP", "GAPPERCENT", "GAPSIZE"]

/-- run.py emitted columns: `clean_temporary_columns` drops
`Prev_Day_Close` and `Date` before `save_gap_data` (lines 54-73). -/
def runOutputCols : List String := (runAllCols.erase "Prev_Day_Close").erase "Date"

/-- run3.py columns after all stages. -/
def run3AllCols : List String :=
  loadCols ++ ["Date", "Prev_Day_Close", "Prev_Day_High", "Volume_Avg",
    "GAPUP", "GAPPERCENT", "GAPSIZE", "GAPTYPE"]

/-- run3.py emitted columns: the call to `clean_temporary_columns` is
commented out (run3.py line 102), so the working columns are saved as-is. -/
def run3OutputCols : List String := run3AllCols

/-- run4.py columns after all stages. -/
def run4AllCols : List String :=
  loadCols ++ ["Date", "Prev_Day_Close", "GAPUP", "GAPAMOUNT",
    "GAPPERCENT", "GAPSIZE"]

/-- run4.py emitted columns: the call to `clean_temporary_columns` is
commented out (run4.py line 87), so the working columns are saved as-is. -/
def run4OutputCols : List String := run4AllCols

/-- app.py columns for an input table with columns `cols` (after the
`datetime` index column is consumed by `read_csv`): `Prev_Close`, `GAPUP`
and `GAPPERCENT` are appended and `Prev_Close` is dropped again before the
save. -/
def appOutputCols (cols : List String) : List String :=
  ((cols ++ ["Prev_Close", "GAPUP", "GAPPERCENT"]).erase "Prev_Close")

/-- The standard app.py input schema (OHLCV after the index column). -/
def appStdCols : List String := ["Open", "High", "Low", "Close", "Volume"]

/- Error-boundary model (claim C9).  Each pipeline is the sequence
load -> per-day aggregation -> detection -> classification -> save; every
stage before the save can raise, and the save is the last statement of the
`try` block (run.py/run3.py/run4.py) resp. of the function body (app.py).
The model tracks the column schema through the stages and the three failure
modes distinguished by the `except` clauses. -/

/-- The failure taxonomy of the per-symbol boundary: missing input file
(`FileNotFoundError`), missing required column (`KeyError`), anything else
(`Exception`). -/
inductive PErr where
  | fileNotFound : PErr
  | keyErr : String → PErr
  | otherErr : String → PErr
deriving DecidableEq

/-- The user-visible message each `except` clause of run.py/run3.py/run4.py
prints for a failure. -/
def errMsg : PErr → String
  | PErr.fileNotFound => "Error: csv not found in input folder"
  | PErr.keyErr col => "Error: Required column not found - " ++ col
  | PErr.otherErr m => "Error processing: " ++ m

/-- A stage that raises `KeyError` when a required column is absent. -/
def requireCol (name : String) (cols : List String) : Except PErr (List String) :=
  if name ∈ cols then Except.ok cols else Except.error (PErr.keyErr name)

/-- `load_stock_data` of run.py/run3.py/run4.py: `none` input means the
file is absent (`FileNotFoundError` from `read_csv`); otherwise the frame
must contain `Datetime` (for `parse_dates`/`set_index`) and `Adj Close`
(for `drop`), both of which are consumed. -/
def loadStockData (inp : Option (List String)) : Except PErr (List String) :=
  match inp with
  | none => Except.error PErr.fileNotFound
  | some cols =>
      if "Datetime" ∈ cols then
        if "Adj Close" ∈ cols then
          Except.ok (((cols.drop 1).erase "Adj Close").erase "Datetime")
        else Except.error (PErr.keyErr "Adj Close")
      else Except.error (PErr.otherErr "Datetime")

/-- run3.py pipeline body (the `try` block of `identify_gap_ups` up to and
excluding `save_gap_data`): each stage reads the columns it needs and
appends the ones it assigns. -/
def pipelineRun3 (inp : Option (List String)) : Except PErr (List String) := do
  let c0 ← loadStockData inp
  let c1 ← requireCol "Close" c0
  let c1 ← requireCol "High" c1
  let c1 ← requireCol "Volume" c1
  let c1 := c1 ++ ["Date", "Prev_Day_Close", "Prev_Day_High", "Volume_Avg"]
  let c2 ← requireCol "Open" c1
  let c2 := c2 ++ ["GAPUP"]
  let c3 := c2 ++ ["GAPPERCENT", "GAPSIZE", "GAPTYPE"]
  pure c3

/-- run4.py pipeline body. -/
def pipelineRun4 (inp : Option (List String)) : Except PErr (List String) := do
  let c0 ← loadStockData inp
  let c1 ← requireCol "Close" c0
  let c1 := c1 ++ ["Date", "Prev_Day_Close"]
  let c2 ← requireCol "Open" c1
  let c2 := c2 ++ ["GAPUP", "GAPAMOUNT"]
  let c3 := c2 ++ ["GAPPERCENT", "GAPSIZE"]
  pure c3

/-- run.py pipeline body. -/
def pipelineRun (inp : Option (List String)) : Except PErr (List String) := do
  let c0 ← loadStockData inp
  let c1 ← requireCol "Close" c0
  let c1 := c1 ++ ["Date", "Prev_Day_Close"]
  let c2 ← requireCol "Open" c1
  let c2 := c2 ++ ["GAPUP"]
  let c3 := c2 ++ ["GAPPERCENT", "GAPSIZE"]
  let c4 := (c3.erase "Prev_Day_Close").erase "Date"
  pure c4

/-- app.py pipeline body (`identify_gap_ups` up to and excluding
`df.to_csv`): `read_csv` needs the file and its `datetime` index column,
the shift needs `Close`, the comparison needs `Open`. -/
def pipelineApp (inp : Option (List String)) : Except PErr (List String) := do
  let cols ← match inp with
    | none => Except.error PErr.fileNotFound
    | some cols =>
        if "datetime" ∈ cols then Except.ok (cols.erase "datetime")
        else Except.error (PErr.otherErr "datetime")
  let c1 ← requireCol "Close" cols
  let c1 := c1 ++ ["Prev_Close", "GAPUP"]
  let c2 ← requireCol "Open" c1
  let c3 := (c2 ++ ["GAPPERCENT"]).erase "Prev_Close"
  pure c3

/-- Observable outcome of one per-symbol run: the table written to the
output path (`none` when nothing was written), the messages printed, and an
exception escaping the call, if any. -/
structure PipeOut where
  written : Option (List String)
  printed : List String
  uncaught : Option PErr
deriving DecidableEq

/-- The `try`/`except` boundary shared by run.py/run3.py/run4.py, applied to
a pipeline body: on success the table is saved and a success message
printed; on failure the matching `except` clause prints a message, nothing
is written, and nothing escapes. -/
def guardedMain (pipeline : Option (List String) → Except PErr (List String))
    (inp : Option (List String)) : PipeOut :=
  match pipeline inp with
  | Except.ok cols =>
      { written := some cols, printed := ["Successfully processed"], uncaught := none }
  | Except.error e =>
      { written := none, printed := [errMsg e], uncaught := none }

/-- run.py `identify_gap_ups` outcome. -/
def mainRun (inp : Option (List String)) : PipeOut := guardedMain pipelineRun inp

/-- run3.py `identify_gap_ups` outcome. -/
def mainRun3 (inp : Option (List String)) : PipeOut := guardedMain pipelineRun3 inp

/-- run4.py `identify_gap_ups` outcome. -/
def mainRun4 (inp : Option (List String)) : PipeOut := guardedMain pipelineRun4 inp

/-- app.py `identify_gap_ups` outcome: there is no `try`/`except`, so a
failure escapes the function unconverted and nothing is printed or
written. -/
def mainApp (inp : Option (List String)) : PipeOut :=
  match pipelineApp inp with
  | Except.ok cols =>
      { written := some cols, printed := [], uncaught := none }
  | Except.error e =>
      { written := none, printed := [], uncaught := some e }

/- Spec-side definitions, used to compare the source behaviour against the
wording of the specification. -/

/-- The gap-size labelling exactly as the specification words it: bounds in
percent, lower-inclusive/upper-exclusive, open-ended top. -/
def specGapSizeLabel (p : ℚ) : String :=
  if p < 5 then "Small"
  else if p < 7 then "Large"
  else if p < 10 then "Moderate"
  else if p < 20 then "Aggressive"
  else "Extreme"

/-- The `avg_opening_volume` of the specification, in its words: the
trailing mean of the first-candle volumes of the most recent at most 20
days strictly before the day of `c`, over first candles only, and null when
no prior day exists. -/
def specVolumeAvg (df : List Candle) (c : Candle) : Option ℚ :=
  let prior := (firstCandles df).filter (fun x => decide (x.ts.date < c.ts.date))
  if prior = [] then none
  else some (listMean ((prior.map (fun x => x.volume)).reverse.take 20))

/- Concrete inputs used by witnesses and counterexamples. -/

/-- Intraday data, day 0: first candle 09:30. -/
def cA1 : Candle := ⟨⟨0, 930⟩, 100, 102, 99, 101, 500⟩

/-- Intraday data, day 0: last candle 10:00, close 100, high 103. -/
def cA2 : Candle := ⟨⟨0, 1000⟩, 101, 103, 100, 100, 400⟩

/-- Intraday data, day 1: first candle 09:30, open 105 (5 percent above the
previous day's last close 100). -/
def cB1 : Candle := ⟨⟨1, 930⟩, 105, 106, 104, 105, 2000⟩

/-- Intraday data, day 1: second candle 10:00, open 106 above both the
previous row's close and the previous day's last close. -/
def cB2 : Candle := ⟨⟨1, 1000⟩, 106, 107, 105, 106, 300⟩

/-- A two-day intraday sequence, two candles per day, chronological. -/
def exIntra : List Candle := [cA1, cA2, cB1, cB2]

/-- Daily data (timestamps at midnight), day 0. -/
def dA : Candle := ⟨⟨0, 0⟩, 100, 102, 99, 100, 1000⟩

/-- Daily data, day 1: open 105 against previous close 100, volume 2000
against trailing average 1000. -/
def dB : Candle := ⟨⟨1, 0⟩, 105, 106, 104, 104, 2000⟩

/-- A two-day daily sequence (each day's only candle is at midnight, the
one shape on which run3's `Volume_Avg` assignment actually fires). -/
def exDaily : List Candle := [dA, dB]

/- Helper lemmas. -/

theorem tsLt_irrefl (t : Ts) : ¬ TsLt t t := by
  simp [TsLt]

theorem tsLt_asymm {s t : Ts} (h : TsLt s t) : ¬ TsLt t s := by
  rcases h with h | ⟨he, ht⟩ <;> rintro (h2 | ⟨he2, ht2⟩) <;> omega

theorem tsLt_ne {s t : Ts} (h : TsLt s t) : s ≠ t := by
  rintro rfl; exact tsLt_irrefl _ h

theorem tsLt_date_le {s t : Ts} (h : TsLt s t) : s.date ≤ t.date := by
  rcases h with h | ⟨he, _⟩ <;> omega

/-- Under the chronological invariant, membership in
`groupby('Date').head(1).index` coincides with being the minimum-timestamp
row of one's day: the two renderings of "first candle of the day" used by
the source agree. -/
theorem isHeadOfDay_eq_min (df : List Candle) (hc : Chrono df) (c : Candle)
    (hm : c ∈ df) : isHeadOfDay df c = isMinTsOfDay df c := by
  induction df with
  | nil => cases hm
  | cons x rest ih =>
    rw [Chrono, List.pairwise_cons] at hc
    obtain ⟨hx, hrest⟩ := hc
    rcases List.mem_cons.mp hm with rfl | hmem
    · have h1 : isHeadOfDay (c :: rest) c = true := by
        simp [isHeadOfDay]
      have h2 : isMinTsOfDay (c :: rest) c = true := by
        simp only [isMinTsOfDay, List.all_eq_true, List.mem_cons]
        rintro y (rfl | hy)
        · simp [tsLt_irrefl y.ts]
        · simp [tsLt_asymm (hx y hy)]
      rw [h1, h2]
    · have hxc := hx c hmem
      by_cases hd : x.ts.date = c.ts.date
      · have hne : x.ts ≠ c.ts := tsLt_ne hxc
        have h1 : isHeadOfDay (x :: rest) c = false := by
          simp [isHeadOfDay, hd, hne]
        have h2 : isMinTsOfDay (x :: rest) c = false := by
          simp [isMinTsOfDay, hd, hxc]
        rw [h1, h2]
      · have h1 : isHeadOfDay (x :: rest) c = isHeadOfDay rest c := by
          simp [isHeadOfDay, hd]
        have h2 : isMinTsOfDay (x :: rest) c = isMinTsOfDay rest c := by
          simp [isMinTsOfDay, hd]
        rw [h1, h2, ih hrest hmem]

/-- C1 (amended): in run3.py and run4.py, a candle that is not the first of
its calendar day is never flagged; and in every variant a candle whose
previous-close reference is null is never flagged (in run.py that reference
is the day-wide `Prev_Day_Close`, in app.py it is the previous row's close,
null exactly at the first row).  The original claim extends the
first-of-day restriction to app.py and run.py, which `c1_counterexample`
refutes. -/
theorem c1_gapup_only_first_of_day (df : List Candle) (hc : Chrono df)
    (c : Candle) (hm : c ∈ df) :
    (isMinTsOfDay df c = false → run3Gapup df c = false ∧ run4Gapup df c = false)
  ∧ (run3PrevDayClose df c = none → run3Gapup df c = false)
  ∧ (run4PrevDayClose df c = none → run4Gapup df c = false)
  ∧ (runPrevDayClose df c = none → runGapup df c = false)
  ∧ (∀ c0 : Candle, df.get? 0 = some c0 →
      ((appAnn df).get? 0).map Prod.fst = some false) := by
  refine ⟨fun hmin => ?_, fun hpc => ?_, fun hpc => ?_, fun hpc => ?_, fun c0 h0 => ?_⟩
  · have hh : isHeadOfDay df c = false := by
      rw [isHeadOfDay_eq_min df hc c hm, hmin]
    exact ⟨by simp [run3Gapup, hh], by simp [run4Gapup, hh]⟩
  · simp [run3Gapup, hpc, optGt]
  · simp [run4Gapup, hpc, optGt]
  · simp [runGapup, hpc, optGt]
  · match df, h0 with
    | q :: t, _ => rfl

/-- C1 witness: the second candle of day 1 of the intraday example is not
first of its day, and run3/run4 indeed leave it unflagged. -/
theorem c1_gapup_only_first_of_day_witness :
    run3Gapup exIntra cB2 = false ∧ run4Gapup exIntra cB2 = false :=
  (c1_gapup_only_first_of_day exIntra (by decide) cB2 (by decide)).1 (by decide)

/-- C1 counterexample: the claim fails as stated for app.py and run.py.  At
the intraday example, the second candle of day 1 is not first of its day,
yet run.py flags it (`Prev_Day_Close` is attached day-wide and the
first-candle mask factor is vacuous) and app.py flags it (its comparison is
against the previous row, not the previous day). -/
theorem c1_counterexample :
    isMinTsOfDay exIntra cB2 = false
  ∧ runGapup exIntra cB2 = true
  ∧ ((appAnn exIntra).get? 3).map Prod.fst = some true := by
  decide

/-- C5: at the intraday example (first candles at 09:30, not midnight),
run3.py leaves `Volume_Avg` NaN on the first candle of day 1, though a
prior day is present; the specification's trailing mean is 500 there.  The
cause is the guard `date in avg_volume.index`, which compares the calendar
date against the full first-candle timestamps and can only match a midnight
timestamp. -/
theorem c5_volume_avg_never_assigned :
    isMinTsOfDay exIntra cB1 = true
  ∧ run3VolumeAvg exIntra cB1 = none
  ∧ specVolumeAvg exIntra cB1 = some 500 := by
  refine ⟨by decide, by decide, ?_⟩
  norm_num [specVolumeAvg, firstCandles, firstCandlesAux, exIntra, cA1, cA2,
    cB1, cB2, listMean]

/-- C6: at the intraday example, run.py attaches `Prev_Day_Close` to the
second candle of day 1 (not first of its day), contradicting its own
docstring ("for the first candle of each day"); run3.py and run4.py leave
that candle's value null as the claim states. -/
theorem c6_run_prev_close_on_all_rows :
    isMinTsOfDay exIntra cB2 = false
  ∧ runPrevDayClose exIntra cB2 = some cA2.close
  ∧ run3PrevDayClose exIntra cB2 = none
  ∧ run4PrevDayClose exIntra cB2 = none := by
  decide

/-- C7: in run4.py, `GAPAMOUNT` is the 2-decimal rounding of
`Open - Prev_Day_Close` on every flagged row and 0 on every unflagged
row. -/
theorem c7_run4_gap_amount (df : List Candle) (c : Candle) :
    (run4Gapup df c = true →
      ∃ p, run4PrevDayClose df c = some p ∧ run4GapAmount df c = round2 (c.open_ - p))
  ∧ (run4Gapup df c = false → run4GapAmount df c = 0) := by
  constructor
  · intro h
    have hsome : (run4PrevDayClose df c).isSome = true := by
      have h2 := h
      rw [run4Gapup] at h2
      simp only [Bool.and_eq_true] at h2
      exact h2.2
    obtain ⟨p, hp⟩ := Option.isSome_iff_exists.mp hsome
    refine ⟨p, hp, ?_⟩
    rw [run4GapAmount, h, if_pos rfl, hp, optRound2Sub]
  · intro h
    rw [run4GapAmount, h]
    simp

/-- C7 witness: the first candle of day 1 of the intraday example is
flagged by run4 and its gap amount is the rounded dollar difference. -/
theorem c7_run4_gap_amount_witness :
    ∃ p, run4PrevDayClose exIntra cB1 = some p
      ∧ run4GapAmount exIntra cB1 = round2 (cB1.open_ - p) :=
  (c7_run4_gap_amount exIntra cB1).1 (by decide)

/-- The masked-assignment chain of `GAPSIZE` agrees with the
specification's nested threshold table on flagged rows. -/
theorem gapSizeOf_true_eq (p : ℚ) : gapSizeOf true p = specGapSizeLabel p := by
  rw [gapSizeOf, specGapSizeLabel]
  split_ifs <;> simp_all <;> linarith

/-- The `GAPSIZE` chain leaves the initializer "None" on unflagged rows. -/
theorem gapSizeOf_false_eq (p : ℚ) : gapSizeOf false p = "None" := by
  rw [gapSizeOf]
  simp

/-- C4: in run3.py and run.py, a flagged row's `GAPSIZE` is determined by
the final `GAPPERCENT` through the lower-inclusive/upper-exclusive table
Small/Large/Moderate/Aggressive/Extreme, and an unflagged row's `GAPSIZE`
is "None". -/
theorem c4_gap_size_mapping (df : List Candle) (c : Candle) :
    (run3Gapup df c = true → run3GapSize df c = specGapSizeLabel (run3GapPercent df c))
  ∧ (run3Gapup df c = false → run3GapSize df c = "None")
  ∧ (runGapup df c = true → runGapSize df c = specGapSizeLabel (runGapPercent df c))
  ∧ (runGapup df c = false → runGapSize df c = "None") := by
  refine ⟨fun h => ?_, fun h => ?_, fun h => ?_, fun h => ?_⟩
  · rw [run3GapSize, h, gapSizeOf_true_eq]
  · rw [run3GapSize, h, gapSizeOf_false_eq]
  · rw [runGapSize, h, gapSizeOf_true_eq]
  · rw [runGapSize, h, gapSizeOf_false_eq]

/-- C4 witness: run.py flags the first candle of day 1 of the intraday
example (so its label follows the table), and run3 leaves the very first
candle unflagged (so its label is "None"). -/
theorem c4_gap_size_mapping_witness :
    runGapSize exIntra cB1 = specGapSizeLabel (runGapPercent exIntra cB1)
  ∧ run3GapSize exIntra cA1 = "None" :=
  ⟨(c4_gap_size_mapping exIntra cB1).2.2.1 (by decide),
   (c4_gap_size_mapping exIntra cA1).2.1 (by decide)⟩

/-- C8 counterexample: the claim fails as stated for run3.py and run4.py,
whose cleanup call is commented out: the temporary working fields `Date`
and `Prev_Day_Close` are still present in the emitted schema. -/
theorem c8_counterexample :
    ("Date" ∈ run3OutputCols ∧ "Prev_Day_Close" ∈ run3OutputCols)
  ∧ ("Date" ∈ run4OutputCols ∧ "Prev_Day_Close" ∈ run4OutputCols) := by
  decide

/-- C8 (amended): run.py and app.py emit the input schema plus the derived
annotation columns with the temporary working fields removed; run3.py and
run4.py emit the temporary fields as well, because their cleanup call is
disabled. -/
theorem c8_output_columns :
    runOutputCols = loadCols ++ ["GAPUP", "GAPPERCENT", "GAPSIZE"]
  ∧ appOutputCols appStdCols = appStdCols ++ ["GAPUP", "GAPPERCENT"]
  ∧ run3OutputCols = loadCols ++ ["Date", "Prev_Day_Close", "Prev_Day_High",
      "Volume_Avg", "GAPUP", "GAPPERCENT", "GAPSIZE", "GAPTYPE"]
  ∧ run4OutputCols = loadCols ++ ["Date", "Prev_Day_Close", "GAPUP",
      "GAPAMOUNT", "GAPPERCENT", "GAPSIZE"] := by
  decide

/-- C9 counterexample: the claim fails as stated for app.py, which has no
`try`/`except`: on a missing input file the failure escapes `identify_gap_ups`
unconverted (no message is printed), though nothing is written either. -/
theorem c9_counterexample :
    mainApp none =
      { written := none, printed := [], uncaught := some PErr.fileNotFound } :=
  rfl

/-- C9 (amended): run.py, run3.py and run4.py catch every pipeline failure
at the per-symbol boundary, print the matching message, write nothing and
let nothing escape; app.py also writes nothing on failure, but the failure
escapes uncaught and unconverted. -/
theorem c9_error_boundary (inp : Option (List String)) :
    (∀ e, pipelineRun inp = Except.error e →
      mainRun inp = { written := none, printed := [errMsg e], uncaught := none })
  ∧ (∀ e, pipelineRun3 inp = Except.error e →
      mainRun3 inp = { written := none, printed := [errMsg e], uncaught := none })
  ∧ (∀ e, pipelineRun4 inp = Except.error e →
      mainRun4 inp = { written := none, printed := [errMsg e], uncaught := none })
  ∧ (∀ cols, pipelineRun3 inp = Except.ok cols →
      mainRun3 inp = PipeOut.mk (some cols) ["Successfully processed"] none)
  ∧ (∀ e, pipelineApp inp = Except.error e →
      mainApp inp = { written := none, printed := [], uncaught := some e }) := by
  refine ⟨fun e h => ?_, fun e h => ?_, fun e h => ?_, fun cols h => ?_, fun e h => ?_⟩
  · rw [mainRun, guardedMain, h]
  · rw [mainRun3, guardedMain, h]
  · rw [mainRun4, guardedMain, h]
  · rw [mainRun3, guardedMain, h]
  · rw [mainApp, h]

/-- C9 witness: on a missing input file, run3.py prints the
file-not-found message, writes nothing, and lets nothing escape. -/
theorem c9_error_boundary_witness :
    mainRun3 none = PipeOut.mk none [errMsg PErr.fileNotFound] none :=
  (c9_error_boundary none).2.1 PErr.fileNotFound rfl

/-- In app.py's annotated sequence, the row after position `i` carries the
flag and percentage computed against row `i`'s close, whatever the running
previous-close accumulator was at the start. -/
theorem appAnnAux_get_succ (i : ℕ) :
    ∀ (prev : Option ℚ) (df : List Candle) (c p : Candle),
      df.get? (i + 1) = some c → df.get? i = some p →
      (appAnnAux prev df).get? (i + 1) =
        some (optGt c.open_ (some p.close),
          if optGt c.open_ (some p.close) then optPct c.open_ (some p.close) else 0) := by
  induction i with
  | zero =>
    intro prev df c p hc hp
    match df, hc, hp with
    | q :: c2 :: t, hc, hp =>
      simp only [List.get?_cons_succ, List.get?_cons_zero, Option.some.injEq] at hc hp
      subst hc; subst hp
      rfl
  | succ n ih =>
    intro prev df c p hc hp
    match df with
    | x :: t =>
      simp only [List.get?_cons_succ] at hc hp
      simpa only [appAnnAux, List.get?_cons_succ] using ih (some x.close) t c p hc hp

/-- C10: app.py ignores day boundaries: each row after the first is flagged
exactly when its open exceeds the immediately preceding row's close, its
percentage is computed against that close (0 when unflagged), and the first
row is never flagged. -/
theorem c10_app_row_based (df : List Candle) (i : ℕ) (c p : Candle)
    (hc : df.get? (i + 1) = some c) (hp : df.get? i = some p) :
    (appAnn df).get? (i + 1) =
      some (decide (p.close < c.open_),
        if p.close < c.open_ then (c.open_ - p.close) / p.close * 100 else 0)
  ∧ ∀ c0 : Candle, df.get? 0 = some c0 → (appAnn df).get? 0 = some (false, 0) := by
  constructor
  · rw [appAnn, appAnnAux_get_succ i none df c p hc hp]
    simp only [optGt, optPct, decide_eq_true_eq]
  · intro c0 h0
    match df, h0 with
    | q :: t, _ => rfl

/-- C10 witness: in the intraday example, row 3 is flagged against row 2's
close and row 0 is unflagged. -/
theorem c10_app_row_based_witness :
    (appAnn exIntra).get? 3 =
      some (decide (cB1.close < cB2.open_),
        if cB1.close < cB2.open_ then (cB2.open_ - cB1.close) / cB1.close * 100 else 0) :=
  (c10_app_row_based exIntra 2 cB2 cB1 rfl rfl).1

/- Machinery for the previous-day-close computation (claim C2). -/

/-- Dates are nondecreasing along a chronological sequence. -/
theorem chrono_dates_pairwise (df : List Candle) (hc : Chrono df) :
    (df.map (fun c => c.ts.date)).Pairwise (· ≤ ·) :=
  List.pairwise_map.mpr (hc.imp (fun h => tsLt_date_le h))

theorem mem_uniqDates {l : List ℤ} {x : ℤ} (h : x ∈ uniqDates l) : x ∈ l := by
  induction l with
  | nil => simp [uniqDates] at h
  | cons d ds ih =>
    rw [uniqDates] at h
    rcases List.mem_cons.mp h with rfl | h2
    · exact List.mem_cons_self _ _
    · exact List.mem_cons_of_mem _ (ih (List.mem_of_mem_filter h2))

/-- The distinct dates of a nondecreasing list are strictly increasing. -/
theorem uniqDates_sorted {l : List ℤ} (h : l.Pairwise (· ≤ ·)) :
    (uniqDates l).Pairwise (· < ·) := by
  induction l with
  | nil => simp [uniqDates]
  | cons d ds ih =>
    rw [List.pairwise_cons] at h
    obtain ⟨hd, hds⟩ := h
    rw [uniqDates, List.pairwise_cons]
    refine ⟨fun y hy => ?_, (ih hds).sublist (List.filter_sublist _)⟩
    have hyne : y ≠ d := by simpa using List.of_mem_filter hy
    exact lt_of_le_of_ne (hd y (mem_uniqDates (List.mem_of_mem_filter hy))) (Ne.symm hyne)

/-- On a chronological sequence, the sorted groupby keys are just the
distinct dates in order of appearance. -/
theorem dayKeysSorted_eq (df : List Candle) (hc : Chrono df) :
    dayKeysSorted df = uniqDates (df.map (fun c => c.ts.date)) :=
  List.Sorted.insertionSort_eq
    ((uniqDates_sorted (chrono_dates_pairwise df hc)).imp (fun h => le_of_lt h))

theorem uniqDates_append_disjoint (xs ys : List ℤ)
    (h : ∀ x ∈ xs, ∀ y ∈ ys, x ≠ y) :
    uniqDates (xs ++ ys) = uniqDates xs ++ uniqDates ys := by
  induction xs with
  | nil => simp [uniqDates]
  | cons d xs ih =>
    have hrest : ∀ x ∈ xs, ∀ y ∈ ys, x ≠ y :=
      fun x hx => h x (List.mem_cons_of_mem _ hx)
    have hkeep : (uniqDates ys).filter (fun x => decide (x ≠ d)) = uniqDates ys := by
      rw [List.filter_eq_self]
      intro a ha
      simpa using (h d (List.mem_cons_self _ _) a (mem_uniqDates ha)).symm
    have hstep1 : uniqDates ((d :: xs) ++ ys)
        = d :: (uniqDates (xs ++ ys)).filter (fun x => decide (x ≠ d)) := rfl
    have hstep2 : uniqDates (d :: xs)
        = d :: (uniqDates xs).filter (fun x => decide (x ≠ d)) := rfl
    rw [hstep1, hstep2, ih hrest, List.filter_append, hkeep, List.cons_append]

/-- In a nondecreasing list, every element is at most the last element. -/
theorem sorted_le_getLast? {l : List ℤ} (h : l.Pairwise (· ≤ ·)) {y : ℤ}
    (hy : l.getLast? = some y) : ∀ z ∈ l, z ≤ y := by
  rcases List.eq_nil_or_concat l with rfl | hl
  · cases hy
  · obtain ⟨L, b, rfl⟩ := hl
    rw [List.concat_eq_append, List.getLast?_concat] at hy
    have hby : b = y := Option.some.inj hy
    subst hby
    rw [List.concat_eq_append, List.pairwise_append] at h
    intro z hz
    rw [List.concat_eq_append, List.mem_append] at hz
    rcases hz with hzL | hzb
    · exact h.2.2 z hzL b (List.mem_singleton.mpr rfl)
    · rw [List.mem_singleton] at hzb
      exact le_of_eq hzb

/-- Filtering keeps the last element when the last element satisfies the
predicate. -/
theorem getLast?_filter {α : Type} {p : α → Bool} {l : List α} {y : α}
    (hy : l.getLast? = some y) (hp : p y = true) :
    (l.filter p).getLast? = some y := by
  induction l with
  | nil => cases hy
  | cons x t ih =>
    cases t with
    | nil =>
      obtain rfl : x = y := by simpa using hy
      simp [List.filter, hp]
    | cons b t2 =>
      rw [List.getLast?_cons_cons] at hy
      have htail := ih hy
      have hne : (b :: t2).filter p ≠ [] := by
        intro h0
        rw [h0] at htail
        cases htail
      rw [List.filter_cons]
      by_cases hx : p x = true
      · rw [if_pos hx]
        obtain ⟨w, ws, hw⟩ := List.exists_cons_of_ne_nil hne
        rw [hw, List.getLast?_cons_cons, ← hw]
        exact htail
      · rw [if_neg hx]
        exact htail

/-- The last distinct date of a nondecreasing list is its last entry. -/
theorem uniqDates_getLast? {l : List ℤ} (h : l.Pairwise (· ≤ ·)) :
    (uniqDates l).getLast? = l.getLast? := by
  induction l with
  | nil => rfl
  | cons d ds ih =>
    rw [List.pairwise_cons] at h
    obtain ⟨hd, hds⟩ := h
    cases ds with
    | nil => rfl
    | cons e ds2 =>
      have ihh := ih hds
      have hne : (e :: ds2) ≠ [] := by simp
      obtain ⟨y, hy⟩ : ∃ y, (e :: ds2).getLast? = some y :=
        ⟨_, List.getLast?_eq_getLast _ hne⟩
      by_cases hyd : y = d
      · have hall : ∀ z ∈ (e :: ds2), z = d := by
          intro z hz
          have h1 : d ≤ z := hd z hz
          have h2 : z ≤ y := sorted_le_getLast? hds hy z hz
          omega
        have hflt : (uniqDates (e :: ds2)).filter (fun x => decide (x ≠ d)) = [] := by
          rw [List.filter_eq_nil_iff]
          intro a ha
          simpa using hall a (mem_uniqDates ha)
        rw [uniqDates, hflt, List.getLast?_cons_cons, hy, hyd]
        rfl
      · have hflt : ((uniqDates (e :: ds2)).filter (fun x => decide (x ≠ d))).getLast?
            = some y := by
          apply getLast?_filter
          · rw [ihh, hy]
          · simpa using hyd
        have hne2 : (uniqDates (e :: ds2)).filter (fun x => decide (x ≠ d)) ≠ [] := by
          intro h0
          rw [h0] at hflt
          cases hflt
        obtain ⟨w, ws, hw⟩ := List.exists_cons_of_ne_nil hne2
        rw [uniqDates, List.getLast?_cons_cons, hy, hw, List.getLast?_cons_cons, ← hw, hflt]

/-- Shifting an association list built over plain keys pairs each key with
the value of the preceding key (and the first key with `none`). -/
theorem shiftAssoc_keys (ks : List ℤ) (g : ℤ → ℚ) :
    shiftAssoc (ks.map (fun k => (k, g k))) =
      ks.zip (none :: ks.map (fun k => some (g k))) := by
  simp [shiftAssoc, List.map_map, Function.comp_def]

/-- Looking up the key right after `kp` in a shifted zip returns `kp`'s
value, provided the key does not occur earlier. -/
theorem lookup_zip_shift (g : ℤ → ℚ) (kp d : ℤ) (ks2 : List ℤ) (hne : d ≠ kp) :
    ∀ ks1 : List ℤ, d ∉ ks1 → ∀ v0 : Option ℚ,
      List.lookup d ((ks1 ++ kp :: d :: ks2).zip
        (v0 :: (ks1 ++ kp :: d :: ks2).map (fun k => some (g k)))) =
      some (some (g kp)) := by
  intro ks1
  induction ks1 with
  | nil =>
    intro _ v0
    have h1 : (d == kp) = false := beq_eq_false_iff_ne.mpr hne
    simp [List.lookup_cons, h1]
  | cons x ks1 ih =>
    intro hnot v0
    have hdx : d ≠ x := fun h0 => hnot (h0 ▸ List.mem_cons_self _ _)
    have hnot2 : d ∉ ks1 := fun h0 => hnot (List.mem_cons_of_mem _ h0)
    have h1 : (d == x) = false := beq_eq_false_iff_ne.mpr hdx
    simp only [List.cons_append, List.map_cons, List.zip_cons_cons, List.lookup_cons, h1]
    exact ih hnot2 (some (g x))

/-- The central computation of `calculate_previous_close`: on a
chronological sequence that splits as `A ++ c :: B` with every row of `A`
on an earlier day than `c`, the shifted last-value series evaluated at
`c`'s day returns the column value of the last row of `A`. -/
theorem lookupShift_concat (f : Candle → ℚ) (A B : List Candle) (c : Candle)
    (hc : Chrono (A ++ c :: B)) (hAne : A ≠ [])
    (hAd : ∀ x ∈ A, x.ts.date < c.ts.date) :
    lookupShift (A ++ c :: B) f c.ts.date = some (f (A.getLast hAne)) := by
  have hcB : Chrono (c :: B) := by
    rw [Chrono, List.pairwise_append] at hc
    exact hc.2.1
  have hBd : ∀ x ∈ B, c.ts.date ≤ x.ts.date := by
    intro x hx
    rw [Chrono, List.pairwise_cons] at hcB
    exact tsLt_date_le (hcB.1 x hx)
  have hA : Chrono A := by
    rw [Chrono, List.pairwise_append] at hc
    exact hc.1
  set p := A.getLast hAne with hpdef
  have hpA : p ∈ A := List.getLast_mem hAne
  have hmap : (A ++ c :: B).map (fun x => x.ts.date)
      = A.map (fun x => x.ts.date) ++ (c.ts.date :: B.map (fun x => x.ts.date)) := by
    simp
  have hdisj : ∀ x ∈ A.map (fun x => x.ts.date),
      ∀ y ∈ c.ts.date :: B.map (fun x => x.ts.date), x ≠ y := by
    intro x hx y hy
    obtain ⟨a, ha, rfl⟩ := List.mem_map.mp hx
    rcases List.mem_cons.mp hy with rfl | hy2
    · exact ne_of_lt (hAd a ha)
    · obtain ⟨b, hb, rfl⟩ := List.mem_map.mp hy2
      have h1 := hBd b hb
      have h2 := hAd a ha
      omega
  have hstepc : uniqDates (c.ts.date :: B.map (fun x => x.ts.date))
      = c.ts.date :: (uniqDates (B.map (fun x => x.ts.date))).filter
          (fun x => decide (x ≠ c.ts.date)) := rfl
  have hkeys : dayKeysSorted (A ++ c :: B)
      = uniqDates (A.map (fun x => x.ts.date)) ++
        (c.ts.date :: (uniqDates (B.map (fun x => x.ts.date))).filter
          (fun x => decide (x ≠ c.ts.date))) := by
    rw [dayKeysSorted_eq _ hc, hmap, uniqDates_append_disjoint _ _ hdisj, hstepc]
  have hAugetLast : (uniqDates (A.map (fun x => x.ts.date))).getLast?
      = some p.ts.date := by
    rw [uniqDates_getLast? (chrono_dates_pairwise A hA), List.getLast?_map,
      List.getLast?_eq_getLast A hAne]
    rfl
  have hune : uniqDates (A.map (fun x => x.ts.date)) ≠ [] := by
    intro h0
    rw [h0] at hAugetLast
    cases hAugetLast
  obtain ⟨K1, kp, hK⟩ :=
    (List.eq_nil_or_concat (uniqDates (A.map (fun x => x.ts.date)))).resolve_left hune
  rw [List.concat_eq_append] at hK
  have hkp : kp = p.ts.date := by
    rw [hK, List.getLast?_concat] at hAugetLast
    exact Option.some.inj hAugetLast
  have huA_lt : ∀ z ∈ uniqDates (A.map (fun x => x.ts.date)), z < c.ts.date := by
    intro z hz
    obtain ⟨a, ha, rfl⟩ := List.mem_map.mp (mem_uniqDates hz)
    exact hAd a ha
  have hnotK1 : c.ts.date ∉ K1 := by
    intro h0
    have := huA_lt _ (hK ▸ List.mem_append_left _ h0)
    omega
  have hnekp : c.ts.date ≠ kp := by
    have := huA_lt kp (hK ▸ List.mem_append_right _ (List.mem_singleton.mpr rfl))
    omega
  have hkeys2 : dayKeysSorted (A ++ c :: B)
      = K1 ++ kp :: c.ts.date ::
          (uniqDates (B.map (fun x => x.ts.date))).filter
            (fun x => decide (x ≠ c.ts.date)) := by
    rw [hkeys, hK, List.append_assoc]
    rfl
  have hlast : lastOfDay (A ++ c :: B) kp f = f p := by
    rw [hkp, lastOfDay]
    have hpd : ∀ b ∈ c :: B, ¬ (b.ts.date = p.ts.date) := by
      intro b hb
      have hplt := hAd p hpA
      rcases List.mem_cons.mp hb with rfl | hb2
      · omega
      · have := hBd b hb2
        omega
    have hfB : (c :: B).filter (fun x => decide (x.ts.date = p.ts.date)) = [] := by
      rw [List.filter_eq_nil_iff]
      intro b hb
      simpa using hpd b hb
    have hAf : (A.filter (fun x => decide (x.ts.date = p.ts.date))).getLast? = some p :=
      getLast?_filter (List.getLast?_eq_getLast A hAne) (by simp)
    rw [List.filter_append, hfB, List.append_nil, List.getLast?_map, hAf]
    rfl
  rw [lookupShift, groupLast, hkeys2, shiftAssoc_keys,
    lookup_zip_shift _ kp _ _ hnekp K1 hnotK1 none, hlast]
  rfl

/-- C2: on a chronological sequence, the `Prev_Day_Close` that run3.py and
run4.py attach to a day's first candle `c` is the close of the
chronologically last candle of the nearest preceding calendar day present
in the data; in a chronological sequence that candle is exactly the row `p`
immediately before `c` (days absent from the data are skipped by
construction).  `c` being a first candle is expressed by its immediate
predecessor `p` lying on an earlier day. -/
theorem c2_prev_day_close (A B : List Candle) (p c : Candle)
    (hc : Chrono (A ++ p :: c :: B)) (hd : p.ts.date ≠ c.ts.date) :
    run3PrevDayClose (A ++ p :: c :: B) c = some p.close
  ∧ run4PrevDayClose (A ++ p :: c :: B) c = some p.close := by
  have hc' := hc
  rw [Chrono, List.pairwise_append] at hc'
  have hcross := hc'.2.2
  have hpcB := hc'.2.1
  rw [List.pairwise_cons] at hpcB
  have hpc : TsLt p.ts c.ts := hpcB.1 c (List.mem_cons_self _ _)
  have hpcB2 := hpcB.2
  rw [List.pairwise_cons] at hpcB2
  have hcBlt : ∀ x ∈ B, TsLt c.ts x.ts := hpcB2.1
  have hpdlt : p.ts.date < c.ts.date := by
    have h1 := tsLt_date_le hpc
    omega
  have hA'd : ∀ x ∈ A ++ [p], x.ts.date < c.ts.date := by
    intro x hx
    rcases List.mem_append.mp hx with hxA | hxp
    · have h1 : TsLt x.ts p.ts := hcross x hxA p (List.mem_cons_self _ _)
      have h2 := tsLt_date_le h1
      omega
    · rw [List.mem_singleton] at hxp
      subst hxp
      exact hpdlt
  have hassoc : A ++ p :: c :: B = (A ++ [p]) ++ c :: B := by
    rw [List.append_assoc]
    rfl
  have hA'ne : A ++ [p] ≠ [] := by simp
  have hgetLast : (A ++ [p]).getLast hA'ne = p := by
    have h1 := List.getLast?_concat (a := p) (l := A)
    rw [List.getLast?_eq_getLast _ hA'ne] at h1
    exact Option.some.inj h1
  have hchrono2 : Chrono ((A ++ [p]) ++ c :: B) := by
    rw [← hassoc]
    exact hc
  have hlk : lookupShift (A ++ p :: c :: B) (fun x => x.close) c.ts.date
      = some p.close := by
    rw [hassoc, lookupShift_concat (fun x => x.close) (A ++ [p]) B c hchrono2 hA'ne hA'd,
      hgetLast]
  have hmin : isMinTsOfDay (A ++ p :: c :: B) c = true := by
    rw [isMinTsOfDay, List.all_eq_true]
    intro x hx
    rcases List.mem_append.mp hx with hxA | hxR
    · have h1 : x.ts.date ≠ c.ts.date :=
        ne_of_lt (hA'd x (List.mem_append_left _ hxA))
      simp [h1]
    · rcases List.mem_cons.mp hxR with rfl | hxR2
      · simp [hd]
      · rcases List.mem_cons.mp hxR2 with rfl | hxB
        · simp [tsLt_irrefl]
        · simp [tsLt_asymm (hcBlt x hxB)]
  exact ⟨by simp [run3PrevDayClose, hmin, hlk], by simp [run4PrevDayClose, hmin, hlk]⟩

/-- C2 witness: in the intraday example, day 1's first candle receives the
close of day 0's last candle in both run3 and run4. -/
theorem c2_prev_day_close_witness :
    run3PrevDayClose exIntra cB1 = some cA2.close
  ∧ run4PrevDayClose exIntra cB1 = some cA2.close := by
  exact c2_prev_day_close [cA1] [cB2] cA2 cB1 (by decide) (by decide)

/-- C3: in run3.py, a candle is flagged exactly when it is the first of its
day, its `Prev_Day_Close` is non-null and exceeded by its open, the gap is
at least 1 percent, and its `Volume_Avg` is non-null and exceeded by its
volume. -/
theorem c3_run3_gapup_iff (df : List Candle) (hc : Chrono df) (c : Candle)
    (hm : c ∈ df) :
    run3Gapup df c = true ↔
      (isMinTsOfDay df c = true
        ∧ (∃ pc, run3PrevDayClose df c = some pc ∧ pc < c.open_
            ∧ 1 ≤ (c.open_ - pc) / pc * 100)
        ∧ (∃ va, run3VolumeAvg df c = some va ∧ va < c.volume)) := by
  rw [run3Gapup, isHeadOfDay_eq_min df hc c hm]
  cases hpcEq : run3PrevDayClose df c with
  | none => simp [hpcEq, optGt]
  | some pc =>
    cases hvaEq : run3VolumeAvg df c with
    | none => simp [hpcEq, hvaEq, optGt]
    | some va =>
      simp only [hpcEq, hvaEq, optGt, optPctGe1, Option.isSome_some,
        Bool.and_eq_true, decide_eq_true_eq, Bool.and_true, Option.some.injEq,
        exists_eq_left']
      tauto

/-- C3 witness: in the daily example, day 1's candle satisfies every factor
and is flagged. -/
theorem c3_run3_gapup_iff_witness : run3Gapup exDaily dB = true :=
  (c3_run3_gapup_iff exDaily (by decide) dB (by decide)).mpr
    ⟨by decide,
     ⟨100, by decide, by norm_num [dB], by norm_num [dB]⟩,
     ⟨listMean [1000], rfl, by norm_num [listMean, dB]⟩⟩

end GapUp
